import Mathlib

set_option maxHeartbeats 1000000

/-! Verification development for the chart engine in
`src/chart_engine/__init__.py`.  The chart computation (`build_chart` and its
helper `_parse_datetime`) is embedded shallowly: Python floats become exact
rationals, Python exceptions become an `Except` error monad, Python `dict`s
become insertion-ordered association lists, and the external `swisseph`
provider becomes an explicit record of (possibly failing) functions. -/

deriving instance DecidableEq for Except

/-- Python float modulo `a % b` for finite operands and a positive divisor:
the result takes the sign of the divisor, `a - b * ⌊a / b⌋`. -/
def pymod (a b : ℚ) : ℚ := a - b * ((Int.floor (a / b) : Int) : ℚ)

/-- Model of a Python `datetime.datetime`: calendar fields plus an optional
fixed UTC offset in seconds (`none` = a naive datetime). -/
structure PyDateTime where
  year : Nat
  month : Nat
  day : Nat
  hour : Nat
  minute : Nat
  second : Nat
  microsecond : Nat
  tzOffSecs : Option Int
deriving DecidableEq

/-- Numeric value of a decimal digit character, `none` for other characters. -/
def digitVal (c : Char) : Option Nat :=
  if 48 ≤ c.toNat ∧ c.toNat ≤ 57 then some (c.toNat - 48) else none

/-- Read exactly two digit characters. -/
def parse2 : List Char → Option (Nat × List Char)
  | a :: b :: rest =>
    match digitVal a, digitVal b with
    | some x, some y => some (x * 10 + y, rest)
    | _, _ => none
  | _ => none

/-- Read exactly three digit characters. -/
def parse3 : List Char → Option (Nat × List Char)
  | a :: b :: c :: rest =>
    match digitVal a, digitVal b, digitVal c with
    | some x, some y, some z => some (x * 100 + y * 10 + z, rest)
    | _, _, _ => none
  | _ => none

/-- Read exactly four digit characters. -/
def parse4 : List Char → Option (Nat × List Char)
  | a :: b :: c :: d :: rest =>
    match digitVal a, digitVal b, digitVal c, digitVal d with
    | some x, some y, some z, some w => some (x * 1000 + y * 100 + z * 10 + w, rest)
    | _, _, _, _ => none
  | _ => none

/-- Gregorian leap-year rule, as used by Python `datetime`. -/
def isLeapYear (y : Nat) : Bool := y % 4 == 0 && (y % 100 != 0 || y % 400 == 0)

/-- Day count of a month, as validated by the Python `datetime` constructor. -/
def daysInMonth (y m : Nat) : Nat :=
  if m == 2 then (if isLeapYear y then 29 else 28)
  else if m == 4 || m == 6 || m == 9 || m == 11 then 30
  else 31

/-- Fractional-second field after the dot: exactly three or six digits,
scaled to microseconds (the CPython `fromisoformat` rule). -/
def parseFrac (cs : List Char) : Option (Nat × List Char) :=
  match parse3 cs with
  | none => none
  | some (hi, rest) =>
    match parse3 rest with
    | some (lo, rest2) => some (hi * 1000 + lo, rest2)
    | none => some (hi * 1000, rest)

/-- UTC offset suffix `±HH:MM` or `±HH:MM:SS`, consuming the rest of the
input; yields the offset in seconds (`none` when the input is already
exhausted, meaning a naive datetime). -/
def parseTZ : List Char → Option (Option Int)
  | [] => some none
  | c :: rest =>
    if c = '+' ∨ c = '-' then
      match parse2 rest with
      | none => none
      | some (oh, r1) =>
        match r1 with
        | ':' :: r2 =>
          match parse2 r2 with
          | none => none
          | some (om, r3) =>
            match r3 with
            | [] =>
              if oh ≤ 23 ∧ om ≤ 59 then
                some (some ((if c = '-' then -1 else 1) * ((oh : Int) * 3600 + (om : Int) * 60)))
              else none
            | ':' :: r4 =>
              match parse2 r4 with
              | some (os, []) =>
                if oh ≤ 23 ∧ om ≤ 59 ∧ os ≤ 59 then
                  some (some ((if c = '-' then -1 else 1) * ((oh : Int) * 3600 + (om : Int) * 60 + (os : Int))))
                else none
              | _ => none
            | _ => none
        | _ => none
    else none

/-- Time-of-day `HH[:MM[:SS[.fff or .ffffff]]]` followed by an optional
offset, consuming the rest of the input. -/
def parseTime (cs : List Char) : Option (Nat × Nat × Nat × Nat × Option Int) :=
  match parse2 cs with
  | none => none
  | some (h, r1) =>
    let finish := fun (mi s us : Nat) (rest : List Char) =>
      match parseTZ rest with
      | none => none
      | some tz => if h ≤ 23 ∧ mi ≤ 59 ∧ s ≤ 59 then some (h, mi, s, us, tz) else none
    match r1 with
    | ':' :: r2 =>
      match parse2 r2 with
      | none => none
      | some (mi, r3) =>
        match r3 with
        | ':' :: r4 =>
          match parse2 r4 with
          | none => none
          | some (s, r5) =>
            match r5 with
            | '.' :: r6 =>
              match parseFrac r6 with
              | none => none
              | some (us, r7) => finish mi s us r7
            | _ => finish mi s 0 r5
        | _ => finish mi 0 0 r3
    | _ => finish 0 0 0 r1

/-- Model of CPython `datetime.fromisoformat` on the core ISO-8601 grammar
accepted by every supported CPython version (3.7 and later): `YYYY-MM-DD`,
optionally followed by a one-character separator and
`HH[:MM[:SS[.fff or .ffffff]]]`, optionally followed by a `±HH:MM[:SS]`
offset.  Component ranges are validated as by the `datetime` constructor. -/
def fromisoformat (str : String) : Option PyDateTime :=
  match parse4 str.toList with
  | none => none
  | some (y, r1) =>
    match r1 with
    | '-' :: r2 =>
      match parse2 r2 with
      | none => none
      | some (mo, r3) =>
        match r3 with
        | '-' :: r4 =>
          match parse2 r4 with
          | none => none
          | some (d, r5) =>
            if 1 ≤ y ∧ y ≤ 9999 ∧ 1 ≤ mo ∧ mo ≤ 12 ∧ 1 ≤ d ∧ d ≤ daysInMonth y mo then
              match r5 with
              | [] => some ⟨y, mo, d, 0, 0, 0, 0, none⟩
              | _ :: r6 =>
                match parseTime r6 with
                | none => none
                | some (h, mi, s, us, tz) => some ⟨y, mo, d, h, mi, s, us, tz⟩
            else none
        | _ => none
    | _ => none

/-- The `datetime_utc` payload entry: a Python string, a `datetime` instance,
or a value of any other type. -/
inductive DtVal where
  | str (s : String)
  | dt (d : PyDateTime)
  | other
deriving DecidableEq

/-- Error taxonomy: `ValueError` raised by validation becomes `.validation`,
`RuntimeError` raised around provider calls becomes `.computation`, and an
exception escaping uncaught (the unguarded tuple indexing in the body loop)
becomes `.unhandled`. -/
inductive BuildError where
  | validation (msg : String)
  | computation (msg : String)
  | unhandled (msg : String)
deriving DecidableEq

/-- `s.endswith(chr(90))` followed by `s[:-1]`: drop one trailing `Z`. -/
def stripZ (s : String) : String :=
  if s.toList.getLast? = some 'Z' then String.mk s.toList.dropLast else s

/-- `_parse_datetime`: strip one trailing `Z` from a string and try
`datetime.fromisoformat`; pass a `datetime` instance through unchanged;
reject any other type. -/
def parseDatetime : DtVal → Except BuildError PyDateTime
  | .str s =>
    match fromisoformat (stripZ s) with
    | some d => Except.ok d
    | none => Except.error (.validation ("Invalid datetime_utc: \x27" ++ s ++ "\x27. Use \x27YYYY-MM-DDTHH:MM:SSZ\x27."))
  | .dt d => Except.ok d
  | .other => Except.error (.validation "datetime_utc must be an ISO8601 string ending in \x27Z\x27 or a datetime instance.")

/-- Result of Python `float(...)`: a finite rational, a NaN, or an infinity. -/
inductive FloatVal where
  | fin (q : ℚ)
  | nan
  | inf (neg : Bool)
deriving DecidableEq

/-- A raw payload value for the coordinate fields. -/
inductive PyVal where
  | int (n : Int)
  | float (q : ℚ)
  | nan
  | inf (neg : Bool)
  | str (s : String)
  | pynone
deriving DecidableEq

/-- Greedily read decimal digits, returning (value, digit count, rest). -/
def takeDigits : List Char → Nat × Nat × List Char
  | [] => (0, 0, [])
  | c :: rest =>
    match digitVal c with
    | none => (0, 0, c :: rest)
    | some d =>
      let (v, n, r) := takeDigits rest
      (d * 10 ^ n + v, n + 1, r)

/-- Model of Python `float(str)` on the common numeric forms
`[sign]digits[.digits]`, `[sign].digits`, `nan`, `inf`, `infinity`
(exponent forms, surrounding whitespace and upper case are not modelled;
no claim depends on them). -/
def parseFloatStr (s : String) : Option FloatVal :=
  let p := match s.toList with
    | '+' :: r => (false, r)
    | '-' :: r => (true, r)
    | r => (false, r)
  let neg := p.1
  let cs1 := p.2
  if cs1 = ['n', 'a', 'n'] then some .nan
  else if cs1 = ['i', 'n', 'f'] ∨ cs1 = ['i', 'n', 'f', 'i', 'n', 'i', 't', 'y'] then some (.inf neg)
  else
    match takeDigits cs1 with
    | (ip, ni, r1) =>
      match r1 with
      | [] => if ni = 0 then none else some (.fin (if neg then -(ip : ℚ) else (ip : ℚ)))
      | '.' :: r2 =>
        match takeDigits r2 with
        | (fp, nf, r3) =>
          if r3 = [] ∧ 0 < ni + nf then
            some (.fin ((if neg then -1 else 1) * ((ip : ℚ) + (fp : ℚ) / ((10 : ℚ) ^ nf))))
          else none
      | _ => none

/-- Python `float(value)` on a payload value: `none` models a raised
`TypeError` or `ValueError`. -/
def floatOf : PyVal → Option FloatVal
  | .int n => some (.fin (n : ℚ))
  | .float q => some (.fin q)
  | .nan => some .nan
  | .inf b => some (.inf b)
  | .str s => parseFloatStr s
  | .pynone => none

/-- Model of Python `str()` on payload values, as interpolated into the
validation messages (exact on ints, strings, `None`, `nan` and `inf`, and on
integral floats; a non-integral float is rendered as an exact fraction
rather than a shortest-round-trip decimal). -/
def pyStr : PyVal → String
  | .int n => toString n
  | .float q => if q.den = 1 then toString q.num ++ ".0" else toString q.num ++ "/" ++ toString q.den
  | .nan => "nan"
  | .inf b => if b then "-inf" else "inf"
  | .str s => s
  | .pynone => "None"

/-- The latitude failure message, raw value interpolated. -/
def latMsg (v : PyVal) : String :=
  "Latitude must be between -90 and 90. Got: " ++ pyStr v ++ "."

/-- The longitude failure message, raw value interpolated. -/
def lonMsg (v : PyVal) : String :=
  "Longitude must be between -180 and 180. Got: " ++ pyStr v ++ "."

/-- Latitude check of `build_chart`, step 2: coerce to float and require
`-90.0 <= lat <= 90.0`; every failure raises the same `ValueError`. -/
def validateLatitude (v : PyVal) : Except BuildError ℚ :=
  match floatOf v with
  | some (.fin q) => if -90 ≤ q ∧ q ≤ 90 then Except.ok q else Except.error (.validation (latMsg v))
  | _ => Except.error (.validation (latMsg v))

/-- Longitude check of `build_chart`, step 2: coerce to float and require
`-180.0 <= lon <= 180.0`; every failure raises the same `ValueError`. -/
def validateLongitude (v : PyVal) : Except BuildError ℚ :=
  match floatOf v with
  | some (.fin q) => if -180 ≤ q ∧ q ≤ 180 then Except.ok q else Except.error (.validation (lonMsg v))
  | _ => Except.error (.validation (lonMsg v))

/-- A `swe.calc_ut` return value: either a 2-tuple `(data_array, retflag)` or
a flat tuple of numbers. -/
inductive CalcResult where
  | pair (data : List ℚ) (retflag : Int)
  | flat (vals : List ℚ)
deriving DecidableEq

/-- The unpacking branch of the body loop (`build_chart` step 4): a 2-tuple
yields the first four entries of its data array; any other tuple yields its
last four entries (`result[-4]` through `result[-1]`); a shape on which the
Python indexing would raise yields `none` (the raise is outside the `try`). -/
def extract : CalcResult → Option (ℚ × ℚ × ℚ × ℚ)
  | .pair data _ =>
    match data[0]?, data[1]?, data[2]?, data[3]? with
    | some a, some b, some c, some d => some (a, b, c, d)
    | _, _, _, _ => none
  | .flat vals =>
    if vals.length = 2 ∨ vals.length < 4 then none
    else
      match vals[vals.length - 4]?, vals[vals.length - 3]?, vals[vals.length - 2]?, vals[vals.length - 1]? with
      | some a, some b, some c, some d => some (a, b, c, d)
      | _, _, _, _ => none

/-- Modelled from the spec: "always extracting the last four numeric values
as (longitude, latitude, distance, speed) in that fixed order". -/
def lastFourSpec (vals : List ℚ) : Option (ℚ × ℚ × ℚ × ℚ) :=
  match vals.reverse with
  | d :: c :: b :: a :: _ => some (a, b, c, d)
  | _ => none

/-- One placement record of the output mapping. -/
structure Placement where
  longitude : ℚ
  latitude : ℚ
  distance_au : ℚ
  speed : ℚ
  retrograde : Bool
deriving DecidableEq

/-- The placement stored for one body from the four extracted provider
values; `retrograde` is recomputed as `speed < 0`. -/
def mkBodyPlacement (lo la di sp : ℚ) : Placement :=
  ⟨lo, la, di, sp, decide (sp < 0)⟩

/-- The placement stored for one chart angle: ancillary fields all zero,
`retrograde` false. -/
def mkAnglePlacement (lo : ℚ) : Placement :=
  ⟨lo, 0, 0, 0, false⟩

/-- The ephemeris provider (`swisseph`) as used by `build_chart`; a raised
exception is modelled as `Except.error` carrying the exception text. -/
structure Provider where
  julday : Nat → Nat → Nat → ℚ → Except String ℚ
  calcUt : ℚ → Nat → Except String CalcResult
  getPlanetName : Nat → String
  housesEx : ℚ → ℚ → ℚ → Except String (List ℚ × List ℚ)

def SE_SUN : Nat := 0
def SE_MOON : Nat := 1
def SE_MERCURY : Nat := 2
def SE_VENUS : Nat := 3
def SE_MARS : Nat := 4
def SE_JUPITER : Nat := 5
def SE_SATURN : Nat := 6
def SE_URANUS : Nat := 7
def SE_NEPTUNE : Nat := 8
def SE_PLUTO : Nat := 9
def SE_CHIRON : Nat := 15
def SE_MEAN_NODE : Nat := 10
def SE_MEAN_APOG : Nat := 12

/-- The fixed, ordered body list of `build_chart`, step 4. -/
def bodies : List Nat :=
  [SE_SUN, SE_MOON, SE_MERCURY, SE_VENUS, SE_MARS, SE_JUPITER, SE_SATURN,
   SE_URANUS, SE_NEPTUNE, SE_PLUTO, SE_CHIRON, SE_MEAN_NODE, SE_MEAN_APOG]

/-- Python `dict` assignment `d[k] = v` on an insertion-ordered association
list: update in place when the key is present, append otherwise. -/
def dictInsert (m : List (String × Placement)) (k : String) (v : Placement) : List (String × Placement) :=
  match m with
  | [] => [(k, v)]
  | (k0, v0) :: rest => if k0 = k then (k, v) :: rest else (k0, v0) :: dictInsert rest k v

/-- Python `dict` lookup `d[k]` on the association list. -/
def getKey (m : List (String × Placement)) (k : String) : Option Placement :=
  match m with
  | [] => none
  | (k0, v0) :: rest => if k0 = k then some v0 else getKey rest k

/-- The per-body loop of `build_chart`, step 4: a provider failure aborts
with a `RuntimeError` naming the body; otherwise the extracted values are
stored under the provider display name. -/
def bodyLoop (prov : Provider) (jd : ℚ) : List Nat → List (String × Placement) → Except BuildError (List (String × Placement))
  | [], acc => Except.ok acc
  | code :: rest, acc =>
    match prov.calcUt jd code with
    | .error e => Except.error (.computation ("Failed to calculate " ++ prov.getPlanetName code ++ ": " ++ e))
    | .ok r =>
      match extract r with
      | none => Except.error (.unhandled "IndexError")
      | some (lo, la, di, sp) =>
        bodyLoop prov jd rest (dictInsert acc (prov.getPlanetName code) (mkBodyPlacement lo la di sp))

/-- Character of a decimal digit. -/
def digitChar (d : Nat) : Char := Char.ofNat (48 + d)

/-- Two-digit zero-padded decimal rendering (for values up to 99). -/
def pad2 (n : Nat) : List Char := [digitChar (n / 10), digitChar (n % 10)]

/-- Four-digit zero-padded decimal rendering (for values up to 9999). -/
def pad4 (n : Nat) : List Char :=
  [digitChar (n / 1000), digitChar (n / 100 % 10), digitChar (n / 10 % 10), digitChar (n % 10)]

/-- The canonical core rendering `YYYY-MM-DDTHH:MM:SS` of the six calendar
components. -/
def isoCore (y mo d h mi s : Nat) : List Char :=
  pad4 y ++ ['-'] ++ pad2 mo ++ ['-'] ++ pad2 d ++ ['T'] ++ pad2 h ++ [':'] ++ pad2 mi ++ [':'] ++ pad2 s

/-- Rendering of a `±HH:MM` offset suffix. -/
def offRender (neg : Bool) (oh om : Nat) : List Char :=
  [if neg then '-' else '+'] ++ pad2 oh ++ [':'] ++ pad2 om

/-- Model of `dt.strftime` with format string `%Y-%m-%dT%H:%M:%SZ`:
zero-padded fields; the microsecond field does not appear, so fractional
seconds are truncated, never rounded. -/
def fmtChart (d : PyDateTime) : String :=
  String.mk (isoCore d.year d.month d.day d.hour d.minute d.second ++ ['Z'])

/-- The raw request record as handed to `build_chart`. -/
structure Payload where
  name : Option String
  datetime_utc : Option DtVal
  latitude : PyVal
  longitude : PyVal

/-- The result record returned by `build_chart` on success. -/
structure ChartResult where
  name : Option String
  datetime_utc : String
  latitude : ℚ
  longitude : ℚ
  julian_day : ℚ
  placements : List (String × Placement)
deriving DecidableEq

/-- The fractional hour passed to `swe.julday`:
`hour + minute/60 + second/3600` (microseconds ignored). -/
def hourFrac (d : PyDateTime) : ℚ :=
  (d.hour : ℚ) + (d.minute : ℚ) / 60 + (d.second : ℚ) / 3600

/-- `build_chart(payload)`: parse the datetime, validate the coordinates,
compute the Julian Day, run the body loop, compute the four house angles,
and assemble the result. -/
def buildChart (prov : Provider) (payload : Payload) : Except BuildError ChartResult := do
  let dt ← parseDatetime (payload.datetime_utc.getD (.str ""))
  let lat ← validateLatitude payload.latitude
  let lon ← validateLongitude payload.longitude
  let jd ← (match prov.julday dt.year dt.month dt.day (hourFrac dt) with
    | .ok j => Except.ok j
    | .error e => Except.error (.computation ("Failed to compute Julian Day: " ++ e)))
  let pls ← bodyLoop prov jd bodies []
  let angs ← (match prov.housesEx jd lat lon with
    | .ok (_, ascmc) =>
      match ascmc[0]?, ascmc[1]? with
      | some a, some m => Except.ok (a, m)
      | _, _ => Except.error (.computation "Failed to compute houses/angles: tuple index out of range")
    | .error e => Except.error (.computation ("Failed to compute houses/angles: " ++ e)))
  let asc := angs.1
  let mc := angs.2
  let dc := pymod (asc + 180) 360
  let ic := pymod (mc + 180) 360
  let pls := dictInsert pls "Ascendant" (mkAnglePlacement asc)
  let pls := dictInsert pls "Midheaven" (mkAnglePlacement mc)
  let pls := dictInsert pls "Descendant" (mkAnglePlacement dc)
  let pls := dictInsert pls "IC" (mkAnglePlacement ic)
  Except.ok ⟨payload.name, fmtChart dt, lat, lon, jd, pls⟩

/-- The swisseph display names of the bodies used by the chart. -/
def sweName (c : Nat) : String :=
  match c with
  | 0 => "Sun"
  | 1 => "Moon"
  | 2 => "Mercury"
  | 3 => "Venus"
  | 4 => "Mars"
  | 5 => "Jupiter"
  | 6 => "Saturn"
  | 7 => "Uranus"
  | 8 => "Neptune"
  | 9 => "Pluto"
  | 15 => "Chiron"
  | 10 => "mean Node"
  | 12 => "mean Apogee"
  | _ => "Body"

/-- A concrete always-succeeding provider with the swisseph display names,
used to instantiate the theorems. -/
def okProvider : Provider where
  julday := fun _ _ _ _ => Except.ok 2460389
  calcUt := fun _ _ => Except.ok (.pair [100, 1, 2, 3, 0, 0] 258)
  getPlanetName := sweName
  housesEx := fun _ _ _ => Except.ok ([0, 30, 60, 90, 120, 150, 180, 210, 240, 270, 300, 330], [10, 100, 5, 6])

/-- A provider that fails exactly on Mars, used to instantiate the
abort-on-body-failure theorem. -/
def marsFailProvider : Provider where
  julday := fun _ _ _ _ => Except.ok 2460389
  calcUt := fun _ c => if c = 4 then Except.error "SwissEph file not found" else Except.ok (.pair [1, 2, 3, -4, 0, 0] 258)
  getPlanetName := sweName
  housesEx := fun _ _ _ => Except.ok ([], [10, 100])

/-- A fully valid concrete payload. -/
def basePayload : Payload :=
  ⟨some "test", some (.str "2024-03-20T03:06:00Z"), .int 10, .int 20⟩

/-! ### General lemmas about the embedding -/

theorem except_bind_def {α β : Type} (x : Except BuildError α) (f : α → Except BuildError β) :
    x >>= f = Except.bind x f := rfl

theorem except_bind_ok {α β : Type} {x : Except BuildError α} {f : α → Except BuildError β} {b : β} :
    x >>= f = Except.ok b ↔ ∃ a, x = Except.ok a ∧ f a = Except.ok b := by
  cases x <;> simp [except_bind_def, Except.bind]

theorem dictInsert_of_not_mem {m : List (String × Placement)} {k : String} (v : Placement)
    (h : k ∉ m.map Prod.fst) : dictInsert m k v = m ++ [(k, v)] := by
  induction m with
  | nil => rfl
  | cons p rest ih =>
    simp only [List.map_cons, List.mem_cons, not_or] at h
    obtain ⟨h1, h2⟩ := h
    obtain ⟨k0, v0⟩ := p
    simp only [dictInsert]
    rw [if_neg (fun hk => h1 hk.symm)]
    simp [ih h2]

theorem getKey_dictInsert_self (m : List (String × Placement)) (k : String) (v : Placement) :
    getKey (dictInsert m k v) k = some v := by
  induction m with
  | nil => simp [dictInsert, getKey]
  | cons p rest ih =>
    obtain ⟨k0, v0⟩ := p
    by_cases hk : k0 = k
    · simp [dictInsert, hk, getKey]
    · simp [dictInsert, hk, getKey, ih]

theorem getKey_dictInsert_ne {k k2 : String} (m : List (String × Placement)) (v : Placement)
    (h : k2 ≠ k) : getKey (dictInsert m k v) k2 = getKey m k2 := by
  induction m with
  | nil => simp [dictInsert, getKey, if_neg (Ne.symm h)]
  | cons p rest ih =>
    obtain ⟨k0, v0⟩ := p
    by_cases hk : k0 = k
    · subst hk
      simp only [dictInsert, if_pos rfl, getKey, if_neg (Ne.symm h)]
    · simp only [dictInsert, if_neg hk, getKey]
      by_cases hk2 : k0 = k2
      · simp [hk2]
      · simp [hk2, ih]

theorem dictInsert_snd_mem {m : List (String × Placement)} {k : String} {v pl : Placement}
    (h : pl ∈ (dictInsert m k v).map Prod.snd) : pl ∈ m.map Prod.snd ∨ pl = v := by
  induction m with
  | nil => simp [dictInsert] at h; simp [h]
  | cons p rest ih =>
    obtain ⟨k0, v0⟩ := p
    by_cases hk : k0 = k
    · simp only [dictInsert, if_pos hk, List.map_cons, List.mem_cons] at h
      rcases h with h | h
      · exact Or.inr h
      · exact Or.inl (by simp [h])
    · simp only [dictInsert, if_neg hk, List.map_cons, List.mem_cons] at h
      rcases h with h | h
      · exact Or.inl (by simp [h])
      · rcases ih h with h2 | h2
        · exact Or.inl (by simp [h2])
        · exact Or.inr h2

theorem bodyLoop_ok_strong {prov : Provider} {jd : ℚ} :
    ∀ {codes : List Nat} {acc pls : List (String × Placement)},
    bodyLoop prov jd codes acc = Except.ok pls →
    (∀ c ∈ codes, prov.getPlanetName c ∉ acc.map Prod.fst) →
    (codes.map prov.getPlanetName).Nodup →
    ∃ tail, pls = acc ++ tail ∧ tail.map Prod.fst = codes.map prov.getPlanetName ∧
      ∀ pl ∈ tail.map Prod.snd, ∃ lo la di sp, pl = mkBodyPlacement lo la di sp := by
  intro codes
  induction codes with
  | nil =>
    intro acc pls h _ _
    refine ⟨[], ?_, by simp, by simp⟩
    simpa [bodyLoop] using h.symm
  | cons code rest ih =>
    intro acc pls h hfresh hnodup
    rw [bodyLoop] at h
    cases hc : prov.calcUt jd code with
    | error e => simp only [hc] at h; exact absurd h (by simp)
    | ok cr =>
      simp only [hc] at h
      cases he : extract cr with
      | none => simp only [he] at h; exact absurd h (by simp)
      | some t =>
        obtain ⟨lo, la, di, sp⟩ := t
        simp only [he] at h
        have hfreshc : prov.getPlanetName code ∉ acc.map Prod.fst :=
          hfresh code (List.mem_cons_self code rest)
        rw [dictInsert_of_not_mem _ hfreshc] at h
        simp only [List.map_cons, List.nodup_cons] at hnodup
        have hfresh2 : ∀ c ∈ rest, prov.getPlanetName c ∉ (acc ++ [(prov.getPlanetName code, mkBodyPlacement lo la di sp)]).map Prod.fst := by
          intro c hc2
          simp only [List.map_append, List.mem_append, List.map_cons, List.map_nil, List.mem_singleton, not_or]
          refine ⟨hfresh c (List.mem_cons_of_mem _ hc2), fun hcontra => hnodup.1 ?_⟩
          rw [← hcontra]
          exact List.mem_map_of_mem _ hc2
        obtain ⟨tail, htail, hkeys, hvals⟩ := ih h hfresh2 hnodup.2
        refine ⟨(prov.getPlanetName code, mkBodyPlacement lo la di sp) :: tail, ?_, ?_, ?_⟩
        · rw [htail, List.append_assoc]; rfl
        · simp [hkeys]
        · intro pl hpl
          simp only [List.map_cons, List.mem_cons] at hpl
          rcases hpl with hpl | hpl
          · exact ⟨lo, la, di, sp, hpl⟩
          · exact hvals pl hpl

theorem bodyLoop_snd_mem {prov : Provider} {jd : ℚ} :
    ∀ {codes : List Nat} {acc pls : List (String × Placement)},
    bodyLoop prov jd codes acc = Except.ok pls →
    ∀ pl ∈ pls.map Prod.snd, pl ∈ acc.map Prod.snd ∨ ∃ lo la di sp, pl = mkBodyPlacement lo la di sp := by
  intro codes
  induction codes with
  | nil =>
    intro acc pls h pl hpl
    rw [bodyLoop] at h
    cases h
    exact Or.inl hpl
  | cons code rest ih =>
    intro acc pls h pl hpl
    rw [bodyLoop] at h
    cases hc : prov.calcUt jd code with
    | error e => simp only [hc] at h; exact absurd h (by simp)
    | ok cr =>
      simp only [hc] at h
      cases he : extract cr with
      | none => simp only [he] at h; exact absurd h (by simp)
      | some t =>
        obtain ⟨lo, la, di, sp⟩ := t
        simp only [he] at h
        rcases ih h pl hpl with hmem | hbody
        · rcases dictInsert_snd_mem hmem with h2 | h2
          · exact Or.inl h2
          · exact Or.inr ⟨lo, la, di, sp, h2⟩
        · exact Or.inr hbody

theorem bodyLoop_append_fail {prov : Provider} {jd : ℚ} {pre : List Nat} {b : Nat} {e : String} (post : List Nat)
    (hpre : ∀ c ∈ pre, ∃ cr t, prov.calcUt jd c = Except.ok cr ∧ extract cr = some t)
    (hb : prov.calcUt jd b = Except.error e) :
    ∀ acc, bodyLoop prov jd (pre ++ b :: post) acc =
      Except.error (.computation ("Failed to calculate " ++ prov.getPlanetName b ++ ": " ++ e)) := by
  induction pre with
  | nil => intro acc; simp [bodyLoop, hb]
  | cons c pre ih =>
    intro acc
    obtain ⟨cr, t, hc, ht⟩ := hpre c (List.mem_cons_self c pre)
    obtain ⟨lo, la, di, sp⟩ := t
    simp only [List.cons_append, bodyLoop, hc, ht]
    exact ih (fun c2 hc2 => hpre c2 (List.mem_cons_of_mem _ hc2)) _

/-- The four angle names in insertion order. -/
def angleNames : List String := ["Ascendant", "Midheaven", "Descendant", "IC"]

/-- Inversion of a successful `buildChart` run: every pipeline step
succeeded, and the result record is exactly the assembly of step 6. -/
theorem buildChart_ok_elim {prov : Provider} {payload : Payload} {r : ChartResult}
    (h : buildChart prov payload = Except.ok r) :
    ∃ dt lat lon jd pls cusps ascmc asc mc,
      parseDatetime (payload.datetime_utc.getD (.str "")) = Except.ok dt ∧
      validateLatitude payload.latitude = Except.ok lat ∧
      validateLongitude payload.longitude = Except.ok lon ∧
      prov.julday dt.year dt.month dt.day (hourFrac dt) = Except.ok jd ∧
      bodyLoop prov jd bodies [] = Except.ok pls ∧
      prov.housesEx jd lat lon = Except.ok (cusps, ascmc) ∧
      ascmc[0]? = some asc ∧ ascmc[1]? = some mc ∧
      r = ⟨payload.name, fmtChart dt, lat, lon, jd,
            dictInsert (dictInsert (dictInsert (dictInsert pls "Ascendant" (mkAnglePlacement asc))
              "Midheaven" (mkAnglePlacement mc))
              "Descendant" (mkAnglePlacement (pymod (asc + 180) 360)))
              "IC" (mkAnglePlacement (pymod (mc + 180) 360))⟩ := by
  rw [buildChart] at h
  rcases except_bind_ok.1 h with ⟨dt, hdt, h⟩
  rcases except_bind_ok.1 h with ⟨lat, hlat, h⟩
  rcases except_bind_ok.1 h with ⟨lon, hlon, h⟩
  rcases except_bind_ok.1 h with ⟨jd, hjd, h⟩
  rcases except_bind_ok.1 h with ⟨pls, hpls, h⟩
  rcases except_bind_ok.1 h with ⟨angs, hangs, h⟩
  have hjd2 : prov.julday dt.year dt.month dt.day (hourFrac dt) = Except.ok jd := by
    cases hj : prov.julday dt.year dt.month dt.day (hourFrac dt) with
    | ok j => simp only [hj] at hjd; cases hjd; rfl
    | error e => simp only [hj] at hjd; exact absurd hjd (by simp)
  obtain ⟨cusps, ascmc, asc, mc, hhouses, hasc, hmc, hangseq⟩ :
      ∃ cusps ascmc asc mc, prov.housesEx jd lat lon = Except.ok (cusps, ascmc) ∧
        ascmc[0]? = some asc ∧ ascmc[1]? = some mc ∧ angs = (asc, mc) := by
    cases hh : prov.housesEx jd lat lon with
    | ok p =>
      obtain ⟨cusps, ascmc⟩ := p
      simp only [hh] at hangs
      cases h0 : ascmc[0]? with
      | none => simp only [h0] at hangs; exact absurd hangs (by simp)
      | some a =>
        cases h1 : ascmc[1]? with
        | none => simp only [h0, h1] at hangs; exact absurd hangs (by simp)
        | some m =>
          simp only [h0, h1] at hangs
          cases hangs
          exact ⟨cusps, ascmc, a, m, rfl, h0, h1, rfl⟩
    | error e => simp only [hh] at hangs; exact absurd hangs (by simp)
  subst hangseq
  simp only at h
  cases h
  exact ⟨dt, lat, lon, jd, pls, cusps, ascmc, asc, mc, hdt, hlat, hlon, hjd2, hpls, hhouses, hasc, hmc, rfl⟩

/-! ### Rendering and parsing roundtrip lemmas -/

theorem toList_mk (cs : List Char) : (String.mk cs).toList = cs := rfl

theorem digitVal_digitChar {d : Nat} (h : d ≤ 9) : digitVal (digitChar d) = some d := by
  interval_cases d <;> decide

theorem digitChar_ne_Z {d : Nat} (h : d ≤ 9) : digitChar d ≠ 'Z' := by
  interval_cases d <;> decide

theorem parse2_pad2 {n : Nat} (h : n ≤ 99) (rest : List Char) :
    parse2 (pad2 n ++ rest) = some (n, rest) := by
  have h1 : n / 10 ≤ 9 := by omega
  have h2 : n % 10 ≤ 9 := by omega
  simp only [pad2, List.cons_append, List.nil_append, parse2,
    digitVal_digitChar h1, digitVal_digitChar h2]
  have hn : n / 10 * 10 + n % 10 = n := by omega
  rw [hn]

theorem parse2_pad2_nil {n : Nat} (h : n ≤ 99) : parse2 (pad2 n) = some (n, []) := by
  have := parse2_pad2 h []
  simpa using this

theorem parse4_pad4 {n : Nat} (h : n ≤ 9999) (rest : List Char) :
    parse4 (pad4 n ++ rest) = some (n, rest) := by
  have h1 : n / 1000 ≤ 9 := by omega
  have h2 : n / 100 % 10 ≤ 9 := by omega
  have h3 : n / 10 % 10 ≤ 9 := by omega
  have h4 : n % 10 ≤ 9 := by omega
  simp only [pad4, List.cons_append, List.nil_append, parse4,
    digitVal_digitChar h1, digitVal_digitChar h2, digitVal_digitChar h3, digitVal_digitChar h4]
  have hn : n / 1000 * 1000 + n / 100 % 10 * 100 + n / 10 % 10 * 10 + n % 10 = n := by omega
  rw [hn]

theorem daysInMonth_le (y m : Nat) : daysInMonth y m ≤ 31 := by
  unfold daysInMonth
  split_ifs <;> omega

theorem parseTime_hms {h mi s : Nat} (hh : h ≤ 23) (hmi : mi ≤ 59) (hs : s ≤ 59) :
    parseTime (pad2 h ++ ':' :: (pad2 mi ++ ':' :: pad2 s)) = some (h, mi, s, 0, none) := by
  simp [parseTime, parse2_pad2 (show h ≤ 99 by omega), parse2_pad2 (show mi ≤ 99 by omega),
    parse2_pad2_nil (show s ≤ 99 by omega), parseTZ, hh, hmi, hs]

theorem parseTime_hms_off {h mi s oh om : Nat} {neg : Bool}
    (hh : h ≤ 23) (hmi : mi ≤ 59) (hs : s ≤ 59) (hoh : oh ≤ 23) (hom : om ≤ 59) :
    parseTime (pad2 h ++ ':' :: (pad2 mi ++ ':' :: (pad2 s ++ offRender neg oh om))) =
      some (h, mi, s, 0, some ((if neg then -1 else 1) * ((oh : Int) * 3600 + (om : Int) * 60))) := by
  cases neg <;>
    simp [parseTime, offRender, parseTZ, parse2_pad2 (show h ≤ 99 by omega),
      parse2_pad2 (show mi ≤ 99 by omega), parse2_pad2 (show s ≤ 99 by omega),
      parse2_pad2 (show oh ≤ 99 by omega), parse2_pad2_nil (show om ≤ 99 by omega),
      hh, hmi, hs, hoh, hom]

theorem fromisoformat_core {y mo d h mi s : Nat}
    (hy1 : 1 ≤ y) (hy2 : y ≤ 9999) (hmo1 : 1 ≤ mo) (hmo2 : mo ≤ 12)
    (hd1 : 1 ≤ d) (hd2 : d ≤ daysInMonth y mo) (hh : h ≤ 23) (hmi : mi ≤ 59) (hs : s ≤ 59) :
    fromisoformat (String.mk (isoCore y mo d h mi s)) = some ⟨y, mo, d, h, mi, s, 0, none⟩ := by
  simp [fromisoformat, toList_mk, isoCore, List.append_assoc, parse4_pad4 hy2,
    parse2_pad2 (show mo ≤ 99 by omega),
    parse2_pad2 (show d ≤ 99 from by have := daysInMonth_le y mo; omega),
    parseTime_hms hh hmi hs, hy1, hy2, hmo1, hmo2, hd1, hd2]

theorem fromisoformat_core_off {y mo d h mi s oh om : Nat} {neg : Bool}
    (hy1 : 1 ≤ y) (hy2 : y ≤ 9999) (hmo1 : 1 ≤ mo) (hmo2 : mo ≤ 12)
    (hd1 : 1 ≤ d) (hd2 : d ≤ daysInMonth y mo) (hh : h ≤ 23) (hmi : mi ≤ 59) (hs : s ≤ 59)
    (hoh : oh ≤ 23) (hom : om ≤ 59) :
    fromisoformat (String.mk (isoCore y mo d h mi s ++ offRender neg oh om)) =
      some ⟨y, mo, d, h, mi, s, 0, some ((if neg then -1 else 1) * ((oh : Int) * 3600 + (om : Int) * 60))⟩ := by
  simp [fromisoformat, toList_mk, isoCore, List.append_assoc, parse4_pad4 hy2,
    parse2_pad2 (show mo ≤ 99 by omega),
    parse2_pad2 (show d ≤ 99 from by have := daysInMonth_le y mo; omega),
    parseTime_hms_off hh hmi hs hoh hom, hy1, hy2, hmo1, hmo2, hd1, hd2]

theorem getLast?_append_two (l : List Char) (a b : Char) : (l ++ [a, b]).getLast? = some b := by
  rw [show l ++ [a, b] = (l ++ [a]) ++ [b] by simp]
  exact List.getLast?_concat _

theorem isoCore_getLast (y mo d h mi s : Nat) :
    (isoCore y mo d h mi s).getLast? = some (digitChar (s % 10)) :=
  getLast?_append_two _ _ _

theorem offAppend_getLast (cs : List Char) (neg : Bool) (oh om : Nat) :
    (cs ++ offRender neg oh om).getLast? = some (digitChar (om % 10)) := by
  rw [show cs ++ offRender neg oh om =
      (cs ++ ([if neg then '-' else '+'] ++ pad2 oh ++ [':'])) ++ pad2 om by
    simp [offRender, List.append_assoc]]
  exact getLast?_append_two _ _ _

theorem stripZ_of_last_ne {cs : List Char} (h : cs.getLast? ≠ some 'Z') :
    stripZ (String.mk cs) = String.mk cs := by
  simp [stripZ, toList_mk, h]

theorem stripZ_isoCore (y mo d h mi s : Nat) :
    stripZ (String.mk (isoCore y mo d h mi s)) = String.mk (isoCore y mo d h mi s) := by
  apply stripZ_of_last_ne
  rw [isoCore_getLast]
  intro hcontra
  have hne := @digitChar_ne_Z (s % 10) (by omega)
  simp only [Option.some.injEq] at hcontra
  exact hne hcontra

theorem stripZ_isoCore_off (y mo d h mi s : Nat) (neg : Bool) (oh om : Nat) :
    stripZ (String.mk (isoCore y mo d h mi s ++ offRender neg oh om)) =
      String.mk (isoCore y mo d h mi s ++ offRender neg oh om) := by
  apply stripZ_of_last_ne
  rw [offAppend_getLast]
  intro hcontra
  have hne := @digitChar_ne_Z (om % 10) (by omega)
  simp only [Option.some.injEq] at hcontra
  exact hne hcontra

theorem parseDatetime_core {y mo d h mi s : Nat}
    (hy1 : 1 ≤ y) (hy2 : y ≤ 9999) (hmo1 : 1 ≤ mo) (hmo2 : mo ≤ 12)
    (hd1 : 1 ≤ d) (hd2 : d ≤ daysInMonth y mo) (hh : h ≤ 23) (hmi : mi ≤ 59) (hs : s ≤ 59) :
    parseDatetime (.str (String.mk (isoCore y mo d h mi s))) =
      Except.ok ⟨y, mo, d, h, mi, s, 0, none⟩ := by
  simp only [parseDatetime, stripZ_isoCore,
    fromisoformat_core hy1 hy2 hmo1 hmo2 hd1 hd2 hh hmi hs]

theorem parseDatetime_core_off {y mo d h mi s oh om : Nat} {neg : Bool}
    (hy1 : 1 ≤ y) (hy2 : y ≤ 9999) (hmo1 : 1 ≤ mo) (hmo2 : mo ≤ 12)
    (hd1 : 1 ≤ d) (hd2 : d ≤ daysInMonth y mo) (hh : h ≤ 23) (hmi : mi ≤ 59) (hs : s ≤ 59)
    (hoh : oh ≤ 23) (hom : om ≤ 59) :
    parseDatetime (.str (String.mk (isoCore y mo d h mi s ++ offRender neg oh om))) =
      Except.ok ⟨y, mo, d, h, mi, s, 0, some ((if neg then -1 else 1) * ((oh : Int) * 3600 + (om : Int) * 60))⟩ := by
  simp only [parseDatetime, stripZ_isoCore_off,
    fromisoformat_core_off hy1 hy2 hmo1 hmo2 hd1 hd2 hh hmi hs hoh hom]

/-- Any successfully parsed datetime lets the always-succeeding provider
build a chart. -/
theorem okProvider_builds {dtv : DtVal} {dt : PyDateTime}
    (hdt : parseDatetime dtv = Except.ok dt) :
    (buildChart okProvider ⟨none, some dtv, .int 0, .int 0⟩).isOk = true := by
  rw [buildChart]
  show (parseDatetime dtv >>= _).isOk = true
  rw [hdt]
  rfl

/-! ### Shape of the final placements mapping -/

theorem keys_angles {pls : List (String × Placement)} {bn : List String}
    (hkeys : pls.map Prod.fst = bn) (hdisj : ∀ a ∈ bn, a ∉ angleNames) (asc mc dc ic : ℚ) :
    (dictInsert (dictInsert (dictInsert (dictInsert pls "Ascendant" (mkAnglePlacement asc))
        "Midheaven" (mkAnglePlacement mc)) "Descendant" (mkAnglePlacement dc))
        "IC" (mkAnglePlacement ic)).map Prod.fst = bn ++ angleNames := by
  have hA : "Ascendant" ∉ pls.map Prod.fst := by
    rw [hkeys]; intro hm; exact (hdisj _ hm) (by decide)
  rw [dictInsert_of_not_mem _ hA]
  have hM : "Midheaven" ∉ (pls ++ [("Ascendant", mkAnglePlacement asc)]).map Prod.fst := by
    rw [List.map_append, hkeys]
    intro hm
    rcases List.mem_append.1 hm with hm | hm
    · exact (hdisj _ hm) (by decide)
    · simp only [List.map_cons, List.map_nil, List.mem_singleton] at hm
      exact absurd hm (by decide)
  rw [dictInsert_of_not_mem _ hM]
  have hD : "Descendant" ∉ ((pls ++ [("Ascendant", mkAnglePlacement asc)]) ++
      [("Midheaven", mkAnglePlacement mc)]).map Prod.fst := by
    rw [List.map_append, List.map_append, hkeys]
    intro hm
    rcases List.mem_append.1 hm with hm | hm
    · rcases List.mem_append.1 hm with hm | hm
      · exact (hdisj _ hm) (by decide)
      · simp only [List.map_cons, List.map_nil, List.mem_singleton] at hm
        exact absurd hm (by decide)
    · simp only [List.map_cons, List.map_nil, List.mem_singleton] at hm
      exact absurd hm (by decide)
  rw [dictInsert_of_not_mem _ hD]
  have hI : "IC" ∉ (((pls ++ [("Ascendant", mkAnglePlacement asc)]) ++
      [("Midheaven", mkAnglePlacement mc)]) ++ [("Descendant", mkAnglePlacement dc)]).map Prod.fst := by
    rw [List.map_append, List.map_append, List.map_append, hkeys]
    intro hm
    rcases List.mem_append.1 hm with hm | hm
    · rcases List.mem_append.1 hm with hm | hm
      · rcases List.mem_append.1 hm with hm | hm
        · exact (hdisj _ hm) (by decide)
        · simp only [List.map_cons, List.map_nil, List.mem_singleton] at hm
          exact absurd hm (by decide)
      · simp only [List.map_cons, List.map_nil, List.mem_singleton] at hm
        exact absurd hm (by decide)
    · simp only [List.map_cons, List.map_nil, List.mem_singleton] at hm
      exact absurd hm (by decide)
  rw [dictInsert_of_not_mem _ hI]
  simp [hkeys, angleNames, List.append_assoc]

/-! ### Claim theorems -/

/-- C1: on every successful `build_chart` run — in particular for every
parseable `datetime_utc` and latitude in `[-90, 90]`, longitude in
`[-180, 180]` — the placements mapping has exactly 17 keys: the provider
display names of the 13 fixed body codes (Sun through Pluto, Chiron, mean
Node, mean Apogee) in the fixed query order, followed by Ascendant,
Midheaven, Descendant, IC, in insertion order; never a partial mapping on
success.  The provider display names are assumed pairwise distinct and
distinct from the four angle names, as the real swisseph names are. -/
theorem claim_C1_placement_keys {prov : Provider} {payload : Payload} {r : ChartResult}
    (h : buildChart prov payload = Except.ok r)
    (hnames : (bodies.map prov.getPlanetName ++ angleNames).Nodup) :
    r.placements.map Prod.fst = bodies.map prov.getPlanetName ++ angleNames ∧
      r.placements.length = 17 := by
  obtain ⟨dt, lat, lon, jd, pls, cusps, ascmc, asc, mc, _, _, _, _, hpls, _, _, _, hr⟩ :=
    buildChart_ok_elim h
  have hplc : r.placements =
      dictInsert (dictInsert (dictInsert (dictInsert pls "Ascendant" (mkAnglePlacement asc))
        "Midheaven" (mkAnglePlacement mc)) "Descendant" (mkAnglePlacement (pymod (asc + 180) 360)))
        "IC" (mkAnglePlacement (pymod (mc + 180) 360)) := by rw [hr]
  rw [List.nodup_append] at hnames
  obtain ⟨hnb, _, hdisj⟩ := hnames
  obtain ⟨tail, htail, hkeys, _⟩ := bodyLoop_ok_strong hpls (by simp) hnb
  rw [List.nil_append] at htail
  subst htail
  have hfinal : r.placements.map Prod.fst = bodies.map prov.getPlanetName ++ angleNames := by
    rw [hplc]
    exact keys_angles hkeys (fun a ha => hdisj ha) _ _ _ _
  refine ⟨hfinal, ?_⟩
  have hlen : r.placements.length = (r.placements.map Prod.fst).length := (List.length_map _ _).symm
  rw [hlen, hfinal]
  simp [bodies, angleNames]

/-- C3: in every successful result, every stored placement (body or angle)
has `retrograde` equal to the recomputed sign predicate `speed < 0` on its
stored provider speed, and the body-placement constructor flips `retrograde`
when the provider speed's sign is flipped (for nonzero speed). -/
theorem claim_C3_retrograde {prov : Provider} {payload : Payload} {r : ChartResult}
    (h : buildChart prov payload = Except.ok r) :
    (∀ pl ∈ r.placements.map Prod.snd, pl.retrograde = decide (pl.speed < 0)) ∧
    (∀ lo la di sp : ℚ, sp ≠ 0 →
      (mkBodyPlacement lo la di (-sp)).retrograde = !(mkBodyPlacement lo la di sp).retrograde) := by
  constructor
  · obtain ⟨dt, lat, lon, jd, pls, cusps, ascmc, asc, mc, _, _, _, _, hpls, _, _, _, hr⟩ :=
      buildChart_ok_elim h
    have hplc : r.placements =
        dictInsert (dictInsert (dictInsert (dictInsert pls "Ascendant" (mkAnglePlacement asc))
          "Midheaven" (mkAnglePlacement mc)) "Descendant" (mkAnglePlacement (pymod (asc + 180) 360)))
          "IC" (mkAnglePlacement (pymod (mc + 180) 360)) := by rw [hr]
    intro pl hpl
    rw [hplc] at hpl
    have hangle : ∀ q : ℚ, pl = mkAnglePlacement q → pl.retrograde = decide (pl.speed < 0) := by
      intro q hq
      rw [hq]
      simp [mkAnglePlacement]
    rcases dictInsert_snd_mem hpl with hpl | hpl
    rotate_left
    · exact hangle _ hpl
    rcases dictInsert_snd_mem hpl with hpl | hpl
    rotate_left
    · exact hangle _ hpl
    rcases dictInsert_snd_mem hpl with hpl | hpl
    rotate_left
    · exact hangle _ hpl
    rcases dictInsert_snd_mem hpl with hpl | hpl
    rotate_left
    · exact hangle _ hpl
    rcases bodyLoop_snd_mem hpls pl hpl with hmem | ⟨lo, la, di, sp, hb⟩
    · simp at hmem
    · rw [hb]; simp [mkBodyPlacement]
  · intro lo la di sp hsp
    by_cases hlt : sp < 0
    · have h2 : ¬(-sp < 0) := by linarith
      simp [mkBodyPlacement, hlt, h2]
    · have h3 : 0 < sp := lt_of_le_of_ne (not_lt.1 hlt) (Ne.symm hsp)
      have h2 : -sp < 0 := by linarith
      simp [mkBodyPlacement, hlt, h2]

/-- C8: in every successful result, each of the four angle placements
(Ascendant, Midheaven, Descendant, IC) has latitude 0, distance 0, speed 0
and retrograde false. -/
theorem claim_C8_angle_fields {prov : Provider} {payload : Payload} {r : ChartResult}
    (h : buildChart prov payload = Except.ok r) :
    ∀ a ∈ angleNames, ∃ pl, getKey r.placements a = some pl ∧
      pl.latitude = 0 ∧ pl.distance_au = 0 ∧ pl.speed = 0 ∧ pl.retrograde = false := by
  obtain ⟨dt, lat, lon, jd, pls, cusps, ascmc, asc, mc, _, _, _, _, hpls, _, _, _, hr⟩ :=
    buildChart_ok_elim h
  have hplc : r.placements =
      dictInsert (dictInsert (dictInsert (dictInsert pls "Ascendant" (mkAnglePlacement asc))
        "Midheaven" (mkAnglePlacement mc)) "Descendant" (mkAnglePlacement (pymod (asc + 180) 360)))
        "IC" (mkAnglePlacement (pymod (mc + 180) 360)) := by rw [hr]
  intro a ha
  simp only [angleNames, List.mem_cons, List.not_mem_nil, or_false] at ha
  rcases ha with rfl | rfl | rfl | rfl
  · rw [hplc, getKey_dictInsert_ne _ _ (by decide), getKey_dictInsert_ne _ _ (by decide),
      getKey_dictInsert_ne _ _ (by decide), getKey_dictInsert_self]
    exact ⟨_, rfl, rfl, rfl, rfl, rfl⟩
  · rw [hplc, getKey_dictInsert_ne _ _ (by decide), getKey_dictInsert_ne _ _ (by decide),
      getKey_dictInsert_self]
    exact ⟨_, rfl, rfl, rfl, rfl, rfl⟩
  · rw [hplc, getKey_dictInsert_ne _ _ (by decide), getKey_dictInsert_self]
    exact ⟨_, rfl, rfl, rfl, rfl, rfl⟩
  · rw [hplc, getKey_dictInsert_self]
    exact ⟨_, rfl, rfl, rfl, rfl, rfl⟩

theorem except_ok_inj {ε α : Type} {x : Except ε α} {a b : α}
    (h1 : x = Except.ok a) (h2 : x = Except.ok b) : a = b := by
  rw [h1] at h2
  cases h2
  rfl

theorem str_toList_append (a b : String) : (a ++ b).toList = a.toList ++ b.toList := by
  cases a
  cases b
  rfl

/-- C4: for all provider outputs, the Descendant longitude is exactly
`(Ascendant + 180) mod 360` and the IC longitude exactly
`(Midheaven + 180) mod 360`, where Ascendant and Midheaven are `ascmc[0]`
and `ascmc[1]` of the house computation and are stored unchanged. -/
theorem claim_C4_derived_angles {prov : Provider} {payload : Payload} {r : ChartResult}
    {dt : PyDateTime} {lat lon jd : ℚ} {cusps ascmc : List ℚ} {asc mc : ℚ}
    (hdt : parseDatetime (payload.datetime_utc.getD (.str "")) = Except.ok dt)
    (hlat : validateLatitude payload.latitude = Except.ok lat)
    (hlon : validateLongitude payload.longitude = Except.ok lon)
    (hjd : prov.julday dt.year dt.month dt.day (hourFrac dt) = Except.ok jd)
    (hhouses : prov.housesEx jd lat lon = Except.ok (cusps, ascmc))
    (h0 : ascmc[0]? = some asc) (h1 : ascmc[1]? = some mc)
    (h : buildChart prov payload = Except.ok r) :
    (∃ pl, getKey r.placements "Ascendant" = some pl ∧ pl.longitude = asc) ∧
    (∃ pl, getKey r.placements "Midheaven" = some pl ∧ pl.longitude = mc) ∧
    (∃ pl, getKey r.placements "Descendant" = some pl ∧ pl.longitude = pymod (asc + 180) 360) ∧
    (∃ pl, getKey r.placements "IC" = some pl ∧ pl.longitude = pymod (mc + 180) 360) := by
  obtain ⟨dt2, lat2, lon2, jd2, pls, cusps2, ascmc2, asc2, mc2, hdt2, hlat2, hlon2, hjd2, hpls,
    hhouses2, h02, h12, hr⟩ := buildChart_ok_elim h
  have hdteq : dt2 = dt := except_ok_inj hdt2 hdt
  rw [hdteq] at hjd2
  have hjdeq : jd2 = jd := except_ok_inj hjd2 hjd
  have hlateq : lat2 = lat := except_ok_inj hlat2 hlat
  have hloneq : lon2 = lon := except_ok_inj hlon2 hlon
  rw [hjdeq, hlateq, hloneq] at hhouses2
  have hpair : (cusps2, ascmc2) = (cusps, ascmc) := except_ok_inj hhouses2 hhouses
  have hascmceq : ascmc2 = ascmc := congrArg Prod.snd hpair
  rw [hascmceq] at h02 h12
  rw [h02] at h0
  rw [h12] at h1
  have hasceq : asc2 = asc := Option.some.inj h0
  have hmceq : mc2 = mc := Option.some.inj h1
  rw [hasceq, hmceq] at hr
  have hplc : r.placements =
      dictInsert (dictInsert (dictInsert (dictInsert pls "Ascendant" (mkAnglePlacement asc))
        "Midheaven" (mkAnglePlacement mc)) "Descendant" (mkAnglePlacement (pymod (asc + 180) 360)))
        "IC" (mkAnglePlacement (pymod (mc + 180) 360)) := by rw [hr]
  refine ⟨⟨mkAnglePlacement asc, ?_, rfl⟩, ⟨mkAnglePlacement mc, ?_, rfl⟩,
    ⟨mkAnglePlacement (pymod (asc + 180) 360), ?_, rfl⟩,
    ⟨mkAnglePlacement (pymod (mc + 180) 360), ?_, rfl⟩⟩
  · rw [hplc, getKey_dictInsert_ne _ _ (by decide), getKey_dictInsert_ne _ _ (by decide),
      getKey_dictInsert_ne _ _ (by decide), getKey_dictInsert_self]
  · rw [hplc, getKey_dictInsert_ne _ _ (by decide), getKey_dictInsert_ne _ _ (by decide),
      getKey_dictInsert_self]
  · rw [hplc, getKey_dictInsert_ne _ _ (by decide), getKey_dictInsert_self]
  · rw [hplc, getKey_dictInsert_self]

/-- C5: when the datetime, coordinates and Julian Day are fine and the
provider position lookup fails for one body (all earlier bodies in the fixed
order succeeding), the whole computation aborts with a `ComputationError`
whose message names that body, and no result — in particular no partial
placements mapping — is produced. -/
theorem claim_C5_body_failure_aborts {prov : Provider} {payload : Payload} {dt : PyDateTime}
    {lat lon jd : ℚ} {pre post : List Nat} {b : Nat} {e : String}
    (hdt : parseDatetime (payload.datetime_utc.getD (.str "")) = Except.ok dt)
    (hlat : validateLatitude payload.latitude = Except.ok lat)
    (hlon : validateLongitude payload.longitude = Except.ok lon)
    (hjd : prov.julday dt.year dt.month dt.day (hourFrac dt) = Except.ok jd)
    (hsplit : bodies = pre ++ b :: post)
    (hpre : ∀ c ∈ pre, ∃ cr t, prov.calcUt jd c = Except.ok cr ∧ extract cr = some t)
    (hb : prov.calcUt jd b = Except.error e) :
    buildChart prov payload =
      Except.error (.computation ("Failed to calculate " ++ prov.getPlanetName b ++ ": " ++ e)) ∧
    ∀ r, buildChart prov payload ≠ Except.ok r := by
  have hloop := bodyLoop_append_fail post hpre hb []
  have hmain : buildChart prov payload =
      Except.error (.computation ("Failed to calculate " ++ prov.getPlanetName b ++ ": " ++ e)) := by
    rw [buildChart, hsplit]
    simp only [except_bind_def, Except.bind, hdt, hlat, hlon, hjd, hloop]
  refine ⟨hmain, ?_⟩
  intro r hcontra
  rw [hmain] at hcontra
  exact absurd hcontra (by simp)

/-- C9: in every successful result (with the datetime and Julian Day steps
named), the output `datetime_utc` is the canonical `YYYY-MM-DDTHH:MM:SSZ`
re-serialization of the parsed instant — a rendering that drops the
microsecond field entirely, i.e. truncates fractional seconds — and the
Julian Day stored is the provider result for
`hour + minute/60 + second/3600`. -/
theorem claim_C9_serialization_and_julian_day {prov : Provider} {payload : Payload}
    {r : ChartResult} {dt : PyDateTime} {jd : ℚ}
    (hdt : parseDatetime (payload.datetime_utc.getD (.str "")) = Except.ok dt)
    (hjd : prov.julday dt.year dt.month dt.day
      ((dt.hour : ℚ) + (dt.minute : ℚ) / 60 + (dt.second : ℚ) / 3600) = Except.ok jd)
    (h : buildChart prov payload = Except.ok r) :
    r.datetime_utc = String.mk (isoCore dt.year dt.month dt.day dt.hour dt.minute dt.second ++ ['Z']) ∧
    (∀ us tz, fmtChart ⟨dt.year, dt.month, dt.day, dt.hour, dt.minute, dt.second, us, tz⟩ =
      String.mk (isoCore dt.year dt.month dt.day dt.hour dt.minute dt.second ++ ['Z'])) ∧
    r.julian_day = jd := by
  obtain ⟨dt2, lat2, lon2, jd2, pls, cusps2, ascmc2, asc2, mc2, hdt2, hlat2, hlon2, hjd2, hpls,
    hhouses2, h02, h12, hr⟩ := buildChart_ok_elim h
  obtain rfl : dt2 = dt := except_ok_inj hdt2 hdt
  obtain rfl : jd2 = jd := except_ok_inj hjd2 hjd
  refine ⟨?_, ?_, ?_⟩
  · rw [hr]
    rfl
  · intro us tz
    rfl
  · rw [hr]

/-- C6: whenever the datetime parses, a latitude value that does not convert
to a finite float in `[-90, 90]` makes `build_chart` fail with a
`ValidationError` whose message contains the field name (`Latitude`) and the
rendering of the rejected raw value; likewise for longitude against
`[-180, 180]` once the latitude has been accepted. -/
theorem claim_C6_validation_messages {prov : Provider} {payload : Payload} {dt : PyDateTime}
    (hdt : parseDatetime (payload.datetime_utc.getD (.str "")) = Except.ok dt) :
    ((∀ q : ℚ, floatOf payload.latitude = some (.fin q) → ¬(-90 ≤ q ∧ q ≤ 90)) →
      ∃ m, buildChart prov payload = Except.error (.validation m) ∧
        ("Latitude").toList <:+: m.toList ∧ (pyStr payload.latitude).toList <:+: m.toList) ∧
    (∀ lat : ℚ, validateLatitude payload.latitude = Except.ok lat →
      (∀ q : ℚ, floatOf payload.longitude = some (.fin q) → ¬(-180 ≤ q ∧ q ≤ 180)) →
      ∃ m, buildChart prov payload = Except.error (.validation m) ∧
        ("Longitude").toList <:+: m.toList ∧ (pyStr payload.longitude).toList <:+: m.toList) := by
  constructor
  · intro hbad
    have hval : validateLatitude payload.latitude =
        Except.error (.validation (latMsg payload.latitude)) := by
      cases hf : floatOf payload.latitude with
      | none => simp [validateLatitude, hf]
      | some fv =>
        cases fv with
        | fin q => simp [validateLatitude, hf, hbad q hf]
        | nan => simp [validateLatitude, hf]
        | inf ng => simp [validateLatitude, hf]
    refine ⟨latMsg payload.latitude, ?_, ?_, ?_⟩
    · rw [buildChart]
      simp only [except_bind_def, Except.bind, hdt, hval]
    · refine ⟨[], (" must be between -90 and 90. Got: ").toList ++
        (pyStr payload.latitude).toList ++ (".").toList, ?_⟩
      rw [List.nil_append, latMsg, str_toList_append, str_toList_append]
      rw [← List.append_assoc, ← List.append_assoc]
      rw [show ("Latitude").toList ++ (" must be between -90 and 90. Got: ").toList =
        ("Latitude must be between -90 and 90. Got: ").toList from by decide]
    · refine ⟨("Latitude must be between -90 and 90. Got: ").toList, (".").toList, ?_⟩
      rw [latMsg, str_toList_append, str_toList_append]
  · intro lat hlat hbad
    have hval : validateLongitude payload.longitude =
        Except.error (.validation (lonMsg payload.longitude)) := by
      cases hf : floatOf payload.longitude with
      | none => simp [validateLongitude, hf]
      | some fv =>
        cases fv with
        | fin q => simp [validateLongitude, hf, hbad q hf]
        | nan => simp [validateLongitude, hf]
        | inf ng => simp [validateLongitude, hf]
    refine ⟨lonMsg payload.longitude, ?_, ?_, ?_⟩
    · rw [buildChart]
      simp only [except_bind_def, Except.bind, hdt, hlat, hval]
    · refine ⟨[], (" must be between -180 and 180. Got: ").toList ++
        (pyStr payload.longitude).toList ++ (".").toList, ?_⟩
      rw [List.nil_append, lonMsg, str_toList_append, str_toList_append]
      rw [← List.append_assoc, ← List.append_assoc]
      rw [show ("Longitude").toList ++ (" must be between -180 and 180. Got: ").toList =
        ("Longitude must be between -180 and 180. Got: ").toList from by decide]
    · refine ⟨("Longitude must be between -180 and 180. Got: ").toList, (".").toList, ?_⟩
      rw [lonMsg, str_toList_append, str_toList_append]

theorem list_len_four {α : Type} {l : List α} (h : l.length = 4) :
    ∃ a b c d, l = [a, b, c, d] := by
  rcases l with _ | ⟨a, l⟩
  · simp at h
  rcases l with _ | ⟨b, l⟩
  · simp at h
  rcases l with _ | ⟨c, l⟩
  · simp at h
  rcases l with _ | ⟨d, l⟩
  · simp at h
  rcases l with _ | ⟨e, l⟩
  · exact ⟨a, b, c, d, rfl⟩
  · simp only [List.length_cons] at h
    omega

/-- C2: for every provider body-position result of the documented shapes —
the four numeric values returned directly as a flat tuple (possibly with
extra leading entries), or the 4-tuple wrapped with a status flag — the
extraction yields the last four numeric values of the returned data, in
order, as (longitude, latitude, distance, speed). -/
theorem claim_C2_extraction :
    (∀ a b c d : ℚ, ∀ flag : Int,
      extract (.pair [a, b, c, d] flag) = some (a, b, c, d) ∧
      lastFourSpec [a, b, c, d] = some (a, b, c, d)) ∧
    (∀ vals : List ℚ, 4 ≤ vals.length → extract (.flat vals) = lastFourSpec vals) := by
  constructor
  · intro a b c d flag
    exact ⟨rfl, rfl⟩
  · intro vals hlen
    obtain ⟨front, last4, hsplit, hlen4⟩ :
        ∃ front last4, vals = front ++ last4 ∧ last4.length = 4 :=
      ⟨vals.take (vals.length - 4), vals.drop (vals.length - 4),
        (List.take_append_drop _ _).symm, by rw [List.length_drop]; omega⟩
    obtain ⟨a, b, c, d, rfl⟩ := list_len_four hlen4
    subst hsplit
    have hL : (front ++ [a, b, c, d]).length = front.length + 4 := by simp
    have hguard : ¬((front ++ [a, b, c, d]).length = 2 ∨ (front ++ [a, b, c, d]).length < 4) := by
      rw [hL]; omega
    simp only [extract, if_neg hguard, hL]
    rw [List.getElem?_append_right (by omega), List.getElem?_append_right (by omega),
      List.getElem?_append_right (by omega), List.getElem?_append_right (by omega)]
    rw [show front.length + 4 - 4 - front.length = 0 from by omega,
      show front.length + 4 - 3 - front.length = 1 from by omega,
      show front.length + 4 - 2 - front.length = 2 from by omega,
      show front.length + 4 - 1 - front.length = 3 from by omega]
    simp [lastFourSpec, List.reverse_append]

def offsetPayload : Payload :=
  ⟨none, some (.str "2024-03-20T03:06:00+05:00"), .int 0, .int 0⟩

/-- C7 counterexample: the datetime string `2024-03-20T03:06:00+05:00`
carries an explicit `+05:00` offset suffix, yet validation accepts it
(`fromisoformat` parses the offset after the no-op `Z` strip) and
`build_chart` produces a chart instead of raising a `ValidationError`. -/
theorem claim_C7_counterexample :
    parseDatetime (.str "2024-03-20T03:06:00+05:00") =
      Except.ok ⟨2024, 3, 20, 3, 6, 0, 0, some 18000⟩ ∧
    (buildChart okProvider offsetPayload).isOk = true := by
  exact ⟨by decide, by decide⟩

/-- C7 (amended): `validate` accepts `datetime_utc` as an ISO-8601 date and
time with optional fractional seconds and an optional trailing `Z`; a string
carrying an explicit `±HH:MM` offset suffix is also accepted whenever its
date-time core is valid — the offset is parsed, not rejected — and
`build_chart` proceeds to produce a chart rather than raising a
`ValidationError`. -/
theorem claim_C7_amended {y mo d h mi s oh om : Nat} {neg : Bool}
    (hy1 : 1 ≤ y) (hy2 : y ≤ 9999) (hmo1 : 1 ≤ mo) (hmo2 : mo ≤ 12)
    (hd1 : 1 ≤ d) (hd2 : d ≤ daysInMonth y mo) (hh : h ≤ 23) (hmi : mi ≤ 59) (hs : s ≤ 59)
    (hoh : oh ≤ 23) (hom : om ≤ 59) :
    parseDatetime (.str (String.mk (isoCore y mo d h mi s ++ offRender neg oh om))) =
      Except.ok ⟨y, mo, d, h, mi, s, 0,
        some ((if neg then -1 else 1) * ((oh : Int) * 3600 + (om : Int) * 60))⟩ ∧
    (buildChart okProvider
      ⟨none, some (.str (String.mk (isoCore y mo d h mi s ++ offRender neg oh om))),
        .int 0, .int 0⟩).isOk = true := by
  have hp := @parseDatetime_core_off y mo d h mi s oh om neg hy1 hy2 hmo1 hmo2 hd1 hd2 hh hmi hs hoh hom
  exact ⟨hp, okProvider_builds hp⟩

/-- C10: datetime parsing strips a trailing `Z` only when present — an
ISO-8601 `datetime_utc` string with no trailing `Z` at all validates
successfully and `build_chart` proceeds, and a `datetime` object passed as
`datetime_utc` is accepted unchanged. -/
theorem claim_C10_no_Z_accepted :
    (∀ y mo d h mi s : Nat, 1 ≤ y → y ≤ 9999 → 1 ≤ mo → mo ≤ 12 → 1 ≤ d → d ≤ daysInMonth y mo →
      h ≤ 23 → mi ≤ 59 → s ≤ 59 →
      parseDatetime (.str (String.mk (isoCore y mo d h mi s))) =
        Except.ok ⟨y, mo, d, h, mi, s, 0, none⟩ ∧
      (buildChart okProvider ⟨none, some (.str (String.mk (isoCore y mo d h mi s))),
        .int 0, .int 0⟩).isOk = true) ∧
    (∀ dtx : PyDateTime, parseDatetime (.dt dtx) = Except.ok dtx) := by
  constructor
  · intro y mo d h mi s hy1 hy2 hmo1 hmo2 hd1 hd2 hh hmi hs
    have hp := parseDatetime_core hy1 hy2 hmo1 hmo2 hd1 hd2 hh hmi hs
    exact ⟨hp, okProvider_builds hp⟩
  · intro dtx
    rfl

/-! ### Witnesses: the theorems instantiated at concrete inputs -/

theorem claim_C1_placement_keys_witness :
    (buildChart okProvider basePayload).toOption.map (fun r => r.placements.map Prod.fst) =
      some ["Sun", "Moon", "Mercury", "Venus", "Mars", "Jupiter", "Saturn", "Uranus", "Neptune",
        "Pluto", "Chiron", "mean Node", "mean Apogee", "Ascendant", "Midheaven", "Descendant", "IC"] := by
  cases hr : buildChart okProvider basePayload with
  | error e =>
    have hok : (buildChart okProvider basePayload).isOk = true := by decide
    rw [hr] at hok
    simp [Except.isOk, Except.toBool] at hok
  | ok r =>
    have h := claim_C1_placement_keys hr (by decide)
    simp only [Except.toOption, Option.map]
    rw [h.1]
    decide

theorem claim_C2_extraction_witness :
    extract (.pair [(1 : ℚ), 2, 3, 4] 258) = some (1, 2, 3, 4) ∧
    extract (.flat [(1 : ℚ), 2, 3, 4, 5, 6]) = lastFourSpec [(1 : ℚ), 2, 3, 4, 5, 6] := by
  exact ⟨(claim_C2_extraction.1 1 2 3 4 258).1, claim_C2_extraction.2 _ (by decide)⟩

theorem claim_C3_retrograde_witness :
    (buildChart okProvider basePayload).toOption.map
      (fun r => (r.placements.map Prod.snd).all (fun pl => pl.retrograde == decide (pl.speed < 0))) =
      some true ∧
    (mkBodyPlacement 100 1 2 (-(3 : ℚ))).retrograde = !(mkBodyPlacement 100 1 2 3).retrograde := by
  cases hr : buildChart okProvider basePayload with
  | error e =>
    have hok : (buildChart okProvider basePayload).isOk = true := by decide
    rw [hr] at hok
    simp [Except.isOk, Except.toBool] at hok
  | ok r =>
    have h := claim_C3_retrograde hr
    constructor
    · have hall : (r.placements.map Prod.snd).all
          (fun pl => pl.retrograde == decide (pl.speed < 0)) = true := by
        rw [List.all_eq_true]
        intro pl hpl
        simpa using h.1 pl hpl
      simp [Except.toOption, hall]
    · exact h.2 100 1 2 3 (by norm_num)

theorem claim_C4_derived_angles_witness :
    (buildChart okProvider basePayload).toOption.map (fun r =>
      ((getKey r.placements "Ascendant").map Placement.longitude,
       (getKey r.placements "Midheaven").map Placement.longitude,
       (getKey r.placements "Descendant").map Placement.longitude,
       (getKey r.placements "IC").map Placement.longitude)) =
      some (some 10, some 100, some 190, some 280) := by
  cases hr : buildChart okProvider basePayload with
  | error e =>
    have hok : (buildChart okProvider basePayload).isOk = true := by decide
    rw [hr] at hok
    simp [Except.isOk, Except.toBool] at hok
  | ok r =>
    have h := @claim_C4_derived_angles okProvider basePayload r ⟨2024, 3, 20, 3, 6, 0, 0, none⟩
      10 20 2460389 [0, 30, 60, 90, 120, 150, 180, 210, 240, 270, 300, 330] [10, 100, 5, 6] 10 100
      (by decide) (by decide) (by decide) (by decide) (by decide) (by decide) (by decide) hr
    obtain ⟨⟨plA, hA, hAl⟩, ⟨plM, hM, hMl⟩, ⟨plD, hD, hDl⟩, ⟨plI, hI, hIl⟩⟩ := h
    have hpd : pymod (10 + 180) 360 = 190 := by
      rw [pymod, show ⌊((10 + 180 : ℚ)) / 360⌋ = 0 from by
        rw [Int.floor_eq_zero_iff]; constructor <;> norm_num]
      norm_num
    have hpi : pymod (100 + 180) 360 = 280 := by
      rw [pymod, show ⌊((100 + 180 : ℚ)) / 360⌋ = 0 from by
        rw [Int.floor_eq_zero_iff]; constructor <;> norm_num]
      norm_num
    simp only [Except.toOption, Option.map, hA, hM, hD, hI, hAl, hMl, hDl, hIl, hpd, hpi]

theorem claim_C5_body_failure_aborts_witness :
    buildChart marsFailProvider basePayload =
      Except.error (.computation "Failed to calculate Mars: SwissEph file not found") ∧
    ∀ r, buildChart marsFailProvider basePayload ≠ Except.ok r := by
  have h := @claim_C5_body_failure_aborts marsFailProvider basePayload
    ⟨2024, 3, 20, 3, 6, 0, 0, none⟩ 10 20 2460389
    [0, 1, 2, 3] [5, 6, 7, 8, 9, 15, 10, 12] 4 "SwissEph file not found"
    rfl rfl rfl rfl rfl
    (by intro c hc; fin_cases hc <;> exact ⟨_, _, rfl, rfl⟩) rfl
  exact ⟨h.1.trans (by decide), h.2⟩

theorem claim_C6_validation_messages_witness :
    (∃ m, buildChart okProvider ⟨none, some (.str "2024-03-20T03:06:00Z"), .int 91, .int 0⟩ =
        Except.error (.validation m) ∧
      ("Latitude").toList <:+: m.toList ∧ (pyStr (.int 91)).toList <:+: m.toList) ∧
    pyStr (.int 91) = "91" ∧
    (∃ m, buildChart okProvider ⟨none, some (.str "2024-03-20T03:06:00Z"), .int 0, .int (-181)⟩ =
        Except.error (.validation m) ∧
      ("Longitude").toList <:+: m.toList ∧ (pyStr (.int (-181))).toList <:+: m.toList) ∧
    pyStr (.int (-181)) = "-181" := by
  refine ⟨?_, by decide, ?_, by decide⟩
  · have h := @claim_C6_validation_messages okProvider
      ⟨none, some (.str "2024-03-20T03:06:00Z"), .int 91, .int 0⟩ ⟨2024, 3, 20, 3, 6, 0, 0, none⟩ rfl
    refine h.1 ?_
    intro q hq
    simp only [floatOf, Option.some.injEq, FloatVal.fin.injEq] at hq
    rw [← hq]
    decide
  · have h := @claim_C6_validation_messages okProvider
      ⟨none, some (.str "2024-03-20T03:06:00Z"), .int 0, .int (-181)⟩ ⟨2024, 3, 20, 3, 6, 0, 0, none⟩ rfl
    refine h.2 0 rfl ?_
    intro q hq
    simp only [floatOf, Option.some.injEq, FloatVal.fin.injEq] at hq
    rw [← hq]
    decide

theorem claim_C7_amended_witness :
    parseDatetime (.str (String.mk (isoCore 2024 3 20 3 6 0 ++ offRender false 5 0))) =
      Except.ok ⟨2024, 3, 20, 3, 6, 0, 0,
        some ((if false then -1 else 1) * ((5 : Int) * 3600 + (0 : Int) * 60))⟩ ∧
    (buildChart okProvider
      ⟨none, some (.str (String.mk (isoCore 2024 3 20 3 6 0 ++ offRender false 5 0))),
        .int 0, .int 0⟩).isOk = true := by
  exact claim_C7_amended (by decide) (by decide) (by decide) (by decide) (by decide) (by decide)
    (by decide) (by decide) (by decide) (by decide) (by decide)

def angleFieldsZero (o : Option Placement) : Bool :=
  match o with
  | some pl => pl.latitude == 0 && pl.distance_au == 0 && pl.speed == 0 && pl.retrograde == false
  | none => false

theorem claim_C8_angle_fields_witness :
    (buildChart okProvider basePayload).toOption.map
      (fun r => angleNames.all (fun a => angleFieldsZero (getKey r.placements a))) = some true := by
  cases hr : buildChart okProvider basePayload with
  | error e =>
    have hok : (buildChart okProvider basePayload).isOk = true := by decide
    rw [hr] at hok
    simp [Except.isOk, Except.toBool] at hok
  | ok r =>
    have h := claim_C8_angle_fields hr
    have hall : angleNames.all (fun a => angleFieldsZero (getKey r.placements a)) = true := by
      rw [List.all_eq_true]
      intro a ha
      obtain ⟨pl, hget, h1, h2, h3, h4⟩ := h a ha
      simp [angleFieldsZero, hget, h1, h2, h3, h4]
    simp [Except.toOption, hall]

theorem claim_C9_serialization_witness :
    (buildChart okProvider basePayload).toOption.map (fun r => (r.datetime_utc, r.julian_day)) =
      some ("2024-03-20T03:06:00Z", 2460389) := by
  cases hr : buildChart okProvider basePayload with
  | error e =>
    have hok : (buildChart okProvider basePayload).isOk = true := by decide
    rw [hr] at hok
    simp [Except.isOk, Except.toBool] at hok
  | ok r =>
    have h := @claim_C9_serialization_and_julian_day okProvider basePayload r
      ⟨2024, 3, 20, 3, 6, 0, 0, none⟩ 2460389 (by decide) (by decide) hr
    simp only [Except.toOption, Option.map]
    rw [h.1, h.2.2]
    decide

theorem claim_C10_no_Z_accepted_witness :
    parseDatetime (.str (String.mk (isoCore 2024 3 20 3 6 0))) =
      Except.ok ⟨2024, 3, 20, 3, 6, 0, 0, none⟩ ∧
    (buildChart okProvider ⟨none, some (.str (String.mk (isoCore 2024 3 20 3 6 0))),
      .int 0, .int 0⟩).isOk = true ∧
    parseDatetime (.dt ⟨2024, 3, 20, 3, 6, 0, 0, none⟩) =
      Except.ok ⟨2024, 3, 20, 3, 6, 0, 0, none⟩ := by
  have h := claim_C10_no_Z_accepted
  have h1 := h.1 2024 3 20 3 6 0 (by decide) (by decide) (by decide) (by decide) (by decide)
    (by decide) (by decide) (by decide) (by decide)
  exact ⟨h1.1, h1.2, h.2 _⟩
